import Mathlib

/-!
Shallow embedding of `src/hydb/db/block.py` (the block-ingestion /
confirmation engine of the hydra-chain-bot-db repository), together with
proofs settling the frozen claims about its specification.

Modelling conventions:
* The relational store (`db.Session` over the `block` table) is a list of
  `Block` rows, threaded explicitly; `commit` appends / replaces rows,
  `rollback` returns the unchanged store.
* The RPC clients (`db.rpc`, `db.rpcx`) are a record of pure functions: one
  observed chain snapshot per call site, sufficient for every claim.
* Python exceptions are `Except` results (`ValueError` from
  `__get_block_info`, `MultipleResultsFound` from SQLAlchemy's
  `.one()` / `.one_or_none()`).
* `schemas.Block.tx_yield_addrs` lives outside `src/`; per its use in
  `on_new_block` a transaction is carried as the list of address strings it
  yields.
* `AddrHist` rows are represented by the matched `Addr` whose
  `on_block_create` hook reported that it added history; the hook itself is
  an abstract boolean function of the environment.
-/

/-- One transaction, as consumed by `Block.on_new_block`: its id plus the
address strings that `schemas.Block.tx_yield_addrs` yields for it. -/
structure Tx where
  txid : String
  addrs : List String
deriving DecidableEq

/-- A tracked address (the `Addr` entity): its base58 (`addr_hy`) and hex
(`addr_hx`) encodings. -/
structure Addr where
  addr_hy : String
  addr_hx : String
deriving DecidableEq

/-- The block detail returned by `db.rpcx.get_block`: typed fields plus the
remaining opaque metadata. -/
structure RawInfo where
  height : Nat
  hash : String
  confirmations : Int
  transactions : List String
  meta : List (String × String)
deriving DecidableEq

/-- One persisted row of the `block` table. -/
structure Block where
  pkid : Nat
  height : Nat
  hash : String
  conf : Int
  info : List (String × String)
  tx : List Tx
  addr_hist : List Addr
deriving DecidableEq

/-- The `block` table contents. -/
abbrev Store := List Block

/-- The chain-client surface used by `block.py` (`db.rpc` and `db.rpcx`). -/
structure RPC where
  getblockcount : Nat
  getblockhash : Nat → String
  getblockheader_confirmations : String → Int
  get_block : String → RawInfo
  get_tx : String → Tx

/-- The database environment: chain client, the tracked-address registry
(the `Addr` table), and the `Addr.on_block_create` hook's behaviour
(whether the hook adds a history row for a given address). -/
structure DBEnv where
  rpc : RPC
  addrs : List Addr
  on_block_create : Addr → Bool

/-- `LocalState`: the process-wide tip-tracker `(height, hash)` pair. -/
structure LocalState where
  height : Nat
  hash : String
deriving DecidableEq

/-- Exceptions surfaced by `Block.get`. -/
inductive DbErr where
  | multipleResultsFound
  | valueError (msg : String)
deriving DecidableEq

/-- `Block.CONF_MATURE`. -/
def Block.CONF_MATURE : Int := 501

/-- `Block.__get_block_info`: fetch block detail by hash, raise `ValueError`
on a height/hash mismatch, delete the hoisted fields, fetch every
transaction's detail. -/
def Block.get_block_info (db : DBEnv) (block_height : Nat) (block_hash : String) :
    Except String (RawInfo × List Tx) :=
  let info := db.rpc.get_block block_hash
  if info.height ≠ block_height ∨ info.hash ≠ block_hash then
    Except.error ("Block info mismatch at height " ++ toString block_height)
  else
    Except.ok (info, info.transactions.map db.rpc.get_tx)

/-- The body of the address-classification loop in `Block.on_new_block`
(lines 63-70): accumulator is `(addresses_hy, addresses_hx, warned)`, where
`warned` records the addresses hit by the unknown-length `log.warning`
branch (they are ignored, never an error). -/
def Block.classify (acc : List String × List String × List String)
    (address : String) : List String × List String × List String :=
  if address.length = 34 then (acc.1 ++ [address], acc.2.1, acc.2.2)
  else if address.length = 40 then (acc.1, acc.2.1 ++ [address], acc.2.2)
  else (acc.1, acc.2.1, acc.2.2 ++ [address])

/-- The nested scan loop of `Block.on_new_block`: every yielded address of
every transaction is classified by literal string length. -/
def Block.scanAddrs (txes : List Tx) : List String × List String × List String :=
  txes.foldl (fun acc tx => tx.addrs.foldl Block.classify acc) ([], [], [])

/-- The batched `Addr` query of `Block.on_new_block` (lines 77-87): tracked
addresses whose base58 or hex form occurs in the candidate sets. -/
def Block.matchedAddrs (db : DBEnv) (hy hx : List String) : List Addr :=
  db.addrs.filter (fun a => decide (a.addr_hy ∈ hy ∨ a.addr_hx ∈ hx))

/-- `Block.on_new_block` for a candidate block at `(height, bhash)`:
`Except.error` when `__get_block_info` raises, `ok none` when the method
returns `False` (block to be discarded), `ok (some b)` with the filled
block when it returns `True`. The `pkid` is a placeholder until commit. -/
def Block.on_new_block (db : DBEnv) (height : Nat) (bhash : String) :
    Except String (Option Block) :=
  match Block.get_block_info db height bhash with
  | Except.error e => Except.error e
  | Except.ok (info, txes) =>
    let scanned := Block.scanAddrs txes
    let addresses_hy := scanned.1
    let addresses_hx := scanned.2.1
    if addresses_hy.isEmpty && addresses_hx.isEmpty then Except.ok none
    else
      let addrs := Block.matchedAddrs db addresses_hy addresses_hx
      if addrs.isEmpty then Except.ok none
      else
        let hist := addrs.filter db.on_block_create
        if hist.isEmpty then Except.ok none
        else Except.ok (some
          { pkid := 0
            height := height
            hash := bhash
            conf := info.confirmations
            info := info.meta
            tx := txes
            addr_hist := hist })

/-- The surrogate primary key drawn from the `block_seq` sequence on
commit. -/
def freshPkid (store : Store) : Nat :=
  store.foldl (fun m b => max m b.pkid) 0 + 1

/-- `Block.make`: fetch the hash for `height`, run `on_new_block`; on
`True` commit the new row (returning it), otherwise roll back (store
unchanged, `None` returned). A `ValueError` from `__get_block_info`
propagates. -/
def Block.make (db : DBEnv) (store : Store) (height : Nat) :
    Except String (Store × Option Block) :=
  match Block.on_new_block db height (db.rpc.getblockhash height) with
  | Except.error e => Except.error e
  | Except.ok none => Except.ok (store, none)
  | Except.ok (some b) =>
    Except.ok (store ++ [{ b with pkid := freshPkid store }],
               some { b with pkid := freshPkid store })

/-- `Block.get`: query rows at `height`; with `create = False` use
`.one_or_none()` (0 rows → `None`), with `create = True` use `.one()`
(0 rows → `NoResultFound`, caught, → `Block.make`); either accessor raises
`MultipleResultsFound` on 2+ rows, which is not caught. -/
def Block.get (db : DBEnv) (store : Store) (height : Nat) (create : Bool) :
    Except DbErr (Store × Option Block) :=
  match store.filter (fun b => b.height == height) with
  | [] =>
    if create then
      match Block.make db store height with
      | Except.error e => Except.error (DbErr.valueError e)
      | Except.ok r => Except.ok r
    else Except.ok (store, none)
  | [b] => Except.ok (store, some b)
  | _ => Except.error DbErr.multipleResultsFound

/-- `Block.update_confirmations` on one row: below the threshold, re-fetch
the live depth; promote (set `conf`, run maturity hooks, commit) when it
reached the threshold and history exists; delete the row (`none`) in the
defensive zero-history branch; otherwise leave the row untouched. -/
def Block.update_confirmations (db : DBEnv) (b : Block) : Option Block :=
  if b.conf < Block.CONF_MATURE then
    let conf := db.rpc.getblockheader_confirmations b.hash
    if Block.CONF_MATURE ≤ conf then
      if b.addr_hist.isEmpty then none
      else some { b with conf := conf }
    else some b
  else some b

/-- The per-row effect of one `update_confirmations_all` pass: rows
selected by the `conf < CONF_MATURE` filter go through
`update_confirmations`, the rest are untouched. -/
def Block.passRow (db : DBEnv) (b : Block) : Option Block :=
  if b.conf < Block.CONF_MATURE then Block.update_confirmations db b else some b

/-- `Block.update_confirmations_all`: the first component is the query
result (rows with `conf < CONF_MATURE`, `ORDER BY height ASC`; a stable
sort models the database ordering), the second the store after the loop
mutated each selected row in place. -/
def Block.update_confirmations_all (db : DBEnv) (store : Store) :
    List Block × Store :=
  (List.insertionSort (fun a b => a.height ≤ b.height)
      (store.filter (fun b => decide (b.conf < Block.CONF_MATURE))),
   store.filterMap (Block.passRow db))

/-- The observable outcome of one `Block.update` call: the store, the
`LocalState` globals after the call, whether the fork warning of line 235
was logged, and the exception propagating out of the call, if any. -/
structure UpdateResult where
  store : Store
  ls : LocalState
  forkWarned : Bool
  err : Option String
deriving DecidableEq

/-- The per-height loop of `Block.update` (lines 239-240): each height goes
through `Block.make`; commits made before a raising height survive, the
exception propagates. -/
def Block.update_loop (db : DBEnv) (store : Store) :
    List Nat → Except (String × Store) Store
  | [] => Except.ok store
  | height :: rest =>
    match Block.make db store height with
    | Except.error e => Except.error (e, store)
    | Except.ok (s2, _) => Block.update_loop db s2 rest

/-- `Block.update`: read the chain tip; at equal height, either return
quietly (hash matches or no prior hash) or log the fork warning and fall
through; then run `Block.make` over `range(local.height + 1,
chain_height + 1)` and, only if no exception was raised, set
`LocalState.height`/`LocalState.hash` to the observed tip. -/
def Block.update (db : DBEnv) (store : Store) (ls : LocalState) : UpdateResult :=
  let chain_height := db.rpc.getblockcount
  let chain_hash := db.rpc.getblockhash chain_height
  if chain_height = ls.height ∧ (ls.hash = "" ∨ chain_hash = ls.hash) then
    { store := store, ls := ls, forkWarned := false, err := none }
  else
    let fork := decide (chain_height = ls.height ∧ ls.hash ≠ "" ∧ chain_hash ≠ ls.hash)
    match Block.update_loop db store
        (List.range' (ls.height + 1) (chain_height - ls.height)) with
    | Except.ok s2 =>
      { store := s2, ls := { height := chain_height, hash := chain_hash },
        forkWarned := fork, err := none }
    | Except.error (e, s2) =>
      { store := s2, ls := ls, forkWarned := fork, err := some e }

/-- `Block.__update_init`: seed `LocalState` from the highest stored block,
or, when the store is empty and the height is still 0, from
`getblockcount() - 1`. -/
def Block.update_init (db : DBEnv) (store : Store) (ls : LocalState) : LocalState :=
  match (List.insertionSort (fun a b : Block => b.height ≤ a.height) store).head? with
  | some b => { height := b.height, hash := b.hash }
  | none =>
    if ls.height = 0 then { ls with height := db.rpc.getblockcount - 1 } else ls

/-- Outcome of a fuel-bounded run of the `Block.update_task` poll loop. -/
inductive TaskOutcome where
  | running (store : Store) (ls : LocalState)
  | interrupted (store : Store) (ls : LocalState)
  | crashed (msg : String) (store : Store) (ls : LocalState)
deriving DecidableEq

/-- Whether a poll-loop run ended because an exception propagated. -/
def TaskOutcome.isCrashed : TaskOutcome → Bool
  | TaskOutcome.crashed _ _ _ => true
  | _ => false

/-- The `while 1` loop of `Block.update_task`, fuel-bounded. `interrupt n`
states that a `KeyboardInterrupt` is delivered during iteration `n`; it is
caught by the enclosing `except KeyboardInterrupt: pass`, ending the loop
cleanly. Any exception raised by the loop body is not caught: it
propagates out of `update_task` (`crashed`). -/
def Block.update_task_loop (db : DBEnv) (interrupt : Nat → Bool) :
    Nat → Store → LocalState → Nat → TaskOutcome
  | _, store, ls, 0 => TaskOutcome.running store ls
  | n, store, ls, fuel + 1 =>
    if interrupt n then TaskOutcome.interrupted store ls
    else
      let r := Block.update db (Block.update_confirmations_all db store).2 ls
      match r.err with
      | some e => TaskOutcome.crashed e r.store r.ls
      | none => Block.update_task_loop db interrupt (n + 1) r.store r.ls fuel

/-- `Block.update_task`: `__update_init` once, then the poll loop. -/
def Block.update_task (db : DBEnv) (interrupt : Nat → Bool)
    (store : Store) (ls : LocalState) (fuel : Nat) : TaskOutcome :=
  Block.update_task_loop db interrupt 0 store (Block.update_init db store ls) fuel

/-- A block as `erasePkid` sees it: same content, surrogate key cleared, so
stores can be compared up to the commit-time sequence values. -/
def erasePkid (b : Block) : Block := { b with pkid := 0 }

/-- What `Block.make` would ingest at `height`, independent of the store:
`some` (up to `pkid`) exactly when `on_new_block` succeeds with a relevant
block. -/
def Block.make_candidate (db : DBEnv) (height : Nat) : Option Block :=
  match Block.on_new_block db height (db.rpc.getblockhash height) with
  | Except.ok (some b) => some (erasePkid b)
  | _ => none

/-! ### Concrete environments used by counterexamples and witnesses -/

/-- A chain at height 2 whose block detail endpoint answers with the wrong
height, so ingesting height 2 raises the `ValueError` of
`__get_block_info`. -/
def rpcMismatch : RPC where
  getblockcount := 2
  getblockhash := fun h => "h" ++ toString h
  getblockheader_confirmations := fun _ => 0
  get_block := fun _ =>
    { height := 0, hash := "", confirmations := 0, transactions := [], meta := [] }
  get_tx := fun t => { txid := t, addrs := [] }

/-- Environment built on `rpcMismatch`, with no tracked addresses. -/
def dbMismatch : DBEnv where
  rpc := rpcMismatch
  addrs := []
  on_block_create := fun _ => false

/-- A chain at height 1 whose only block carries no transactions, so
ingesting height 1 succeeds and discards the block. -/
def rpcQuiet : RPC where
  getblockcount := 1
  getblockhash := fun h => "q" ++ toString h
  getblockheader_confirmations := fun _ => 0
  get_block := fun _ =>
    { height := 1, hash := "q1", confirmations := 0, transactions := [], meta := [] }
  get_tx := fun t => { txid := t, addrs := [] }

/-- Environment built on `rpcQuiet`. -/
def dbQuiet : DBEnv where
  rpc := rpcQuiet
  addrs := []
  on_block_create := fun _ => false

/-- A 34-character (base58-length) address string. -/
def addr34 : String := "abcdefghijklmnopqrstuvwxyz12345678"

/-- A 40-character (hex-length) address string. -/
def addr40 : String := "ffffffffffffffffffffffffffffffffffffffff"

/-- A tracked address whose base58 form is `addr34`. -/
def trackedAddr : Addr := { addr_hy := addr34, addr_hx := addr40 }

/-- A chain at height 1 whose block `Y1` has one transaction paying
`addr34`, so ingesting height 1 creates a relevant block. -/
def rpcDup : RPC where
  getblockcount := 1
  getblockhash := fun h => "Y" ++ toString h
  getblockheader_confirmations := fun _ => 0
  get_block := fun _ =>
    { height := 1, hash := "Y1", confirmations := 3, transactions := ["t1"], meta := [] }
  get_tx := fun t => { txid := t, addrs := [addr34] }

/-- Environment built on `rpcDup`: `addr34` is tracked and its
`on_block_create` hook adds history. -/
def dbDup : DBEnv where
  rpc := rpcDup
  addrs := [trackedAddr]
  on_block_create := fun _ => true

/-- A store already holding a block at height 1 (hash `X`). -/
def storeDup : Store :=
  [{ pkid := 1, height := 1, hash := "X", conf := 600, info := [], tx := [],
     addr_hist := [trackedAddr] }]

/-- A chain whose tip is height 5 with hash `bbb`, used for the
fork-detection case. -/
def rpcFork : RPC where
  getblockcount := 5
  getblockhash := fun _ => "bbb"
  getblockheader_confirmations := fun _ => 0
  get_block := fun _ =>
    { height := 5, hash := "bbb", confirmations := 0, transactions := [], meta := [] }
  get_tx := fun t => { txid := t, addrs := [] }

/-- Environment built on `rpcFork`. -/
def dbFork : DBEnv where
  rpc := rpcFork
  addrs := []
  on_block_create := fun _ => false

/-- The block `Block.make` persists for `dbDup` at height 1 over the empty
store. -/
def nbDup : Block :=
  { pkid := 1, height := 1, hash := "Y1", conf := 3, info := [],
    tx := [{ txid := "t1", addrs := [addr34] }], addr_hist := [trackedAddr] }

/-- A stored block already past the maturity threshold. -/
def blockMature : Block :=
  { pkid := 1, height := 3, hash := "m", conf := 600, info := [], tx := [],
    addr_hist := [trackedAddr] }

/-- A stored block still below the maturity threshold. -/
def blockImmature : Block :=
  { pkid := 2, height := 4, hash := "i", conf := 480, info := [], tx := [],
    addr_hist := [trackedAddr] }

/-- First of two stored rows sharing height 9. -/
def blockNine1 : Block :=
  { pkid := 3, height := 9, hash := "na", conf := 1, info := [], tx := [],
    addr_hist := [trackedAddr] }

/-- Second of two stored rows sharing height 9. -/
def blockNine2 : Block :=
  { pkid := 4, height := 9, hash := "nb", conf := 1, info := [], tx := [],
    addr_hist := [trackedAddr] }

/-- A transaction yielding one base58-length, one hex-length and one
odd-length address. -/
def txMixed : Tx := { txid := "t", addrs := [addr34, addr40, "zz"] }

instance : IsTotal Block (fun a b => a.height ≤ b.height) :=
  ⟨fun a b => Nat.le_total a.height b.height⟩

instance : IsTrans Block (fun a b => a.height ≤ b.height) :=
  ⟨fun _ _ _ h h' => Nat.le_trans h h'⟩

/-! ### Helper lemmas -/

/-- Closed form of the classification fold: each accumulator component
collects exactly the addresses of its length class, in order. -/
theorem classify_foldl (L : List String) (acc : List String × List String × List String) :
    L.foldl Block.classify acc =
      (acc.1 ++ L.filter (fun a => a.length == 34),
       acc.2.1 ++ L.filter (fun a => a.length == 40),
       acc.2.2 ++ L.filter (fun a => !(a.length == 34) && !(a.length == 40))) := by
  induction L generalizing acc with
  | nil => simp
  | cons x xs ih =>
    rw [List.foldl_cons, ih]
    by_cases h34 : x.length = 34
    · simp [Block.classify, h34, List.filter_cons]
    · by_cases h40 : x.length = 40
      · simp [Block.classify, h34, h40, List.filter_cons]
      · simp [Block.classify, h34, h40, List.filter_cons]

/-- The nested scan over all transactions equals the classification of the
flattened address yield. -/
theorem scanAddrs_eq (txes : List Tx) :
    Block.scanAddrs txes =
      ((txes.map Tx.addrs).flatten.filter (fun a => a.length == 34),
       (txes.map Tx.addrs).flatten.filter (fun a => a.length == 40),
       (txes.map Tx.addrs).flatten.filter
         (fun a => !(a.length == 34) && !(a.length == 40))) := by
  unfold Block.scanAddrs
  rw [show (fun (acc : List String × List String × List String) (tx : Tx) =>
        tx.addrs.foldl Block.classify acc) =
      (fun acc tx => (fun (b : List String × List String × List String)
        (l : List String) => l.foldl Block.classify b) acc (Tx.addrs tx)) from rfl,
    ← List.foldl_map Tx.addrs, ← List.foldl_flatten]
  rw [classify_foldl]
  simp

/-- A block returned by a successful, relevant `on_new_block` has at least
one history row. -/
theorem on_new_block_some_hist (db : DBEnv) (height : Nat) (bhash : String) (b : Block)
    (h : Block.on_new_block db height bhash = Except.ok (some b)) :
    b.addr_hist ≠ [] := by
  unfold Block.on_new_block at h
  cases hinfo : Block.get_block_info db height bhash with
  | error e => rw [hinfo] at h; simp at h
  | ok p =>
    rw [hinfo] at h
    obtain ⟨info, txes⟩ := p
    simp only at h
    by_cases h1 : (Block.scanAddrs txes).1.isEmpty && (Block.scanAddrs txes).2.1.isEmpty
    · rw [if_pos h1] at h; simp at h
    · rw [if_neg h1] at h
      by_cases h2 : (Block.matchedAddrs db (Block.scanAddrs txes).1
          (Block.scanAddrs txes).2.1).isEmpty
      · rw [if_pos h2] at h; simp at h
      · rw [if_neg h2] at h
        by_cases h3 : ((Block.matchedAddrs db (Block.scanAddrs txes).1
            (Block.scanAddrs txes).2.1).filter db.on_block_create).isEmpty
        · rw [if_pos h3] at h; simp at h
        · rw [if_neg h3] at h
          simp only [Except.ok.injEq, Option.some.injEq] at h
          subst h
          simpa [List.isEmpty_iff] using h3

/-- A successful run of the per-height loop appends, in height order, the
blocks `Block.make` ingests at each height — independently of the store
contents (`erasePkid` discounts only the commit-time sequence values). -/
theorem update_loop_ok_map (db : DBEnv) :
    ∀ (hs : List Nat) (store s' : Store),
      Block.update_loop db store hs = Except.ok s' →
      s'.map erasePkid =
        store.map erasePkid ++ hs.filterMap (Block.make_candidate db) := by
  intro hs
  induction hs with
  | nil =>
    intro store s' h
    simp only [Block.update_loop, Except.ok.injEq] at h
    subst h
    simp
  | cons x xs ih =>
    intro store s' h
    unfold Block.update_loop at h
    cases hmk : Block.make db store x with
    | error e => rw [hmk] at h; simp at h
    | ok p =>
      rw [hmk] at h
      obtain ⟨s2, ob⟩ := p
      simp only at h
      have hstep := ih s2 s' h
      unfold Block.make at hmk
      cases hon : Block.on_new_block db x (db.rpc.getblockhash x) with
      | error e => rw [hon] at hmk; simp at hmk
      | ok ob0 =>
        rw [hon] at hmk
        cases ob0 with
        | none =>
          simp only [Except.ok.injEq, Prod.mk.injEq] at hmk
          obtain ⟨hs2, -⟩ := hmk
          subst hs2
          rw [hstep]
          have hcand : Block.make_candidate db x = none := by
            unfold Block.make_candidate
            rw [hon]
          rw [List.filterMap_cons, hcand]
        | some b0 =>
          simp only [Except.ok.injEq, Prod.mk.injEq] at hmk
          obtain ⟨hs2, -⟩ := hmk
          subst hs2
          rw [hstep]
          have hcand : Block.make_candidate db x = some (erasePkid b0) := by
            unfold Block.make_candidate
            rw [hon]
          rw [List.filterMap_cons, hcand]
          simp [erasePkid]

/-! ### Claim theorems -/

/-- C1 (amended): after `Block.update`, the tracker is set to
`local.height = chain_height` and `local.hash = chain_hash` only when the
per-height ingestion loop raised no exception (in the quiet equal-height
early return the height already equals `chain_height` and the recorded
hash, when present, already equals `chain_hash`); when some height's
ingestion fails, the assignments at lines 242-243 are skipped: the
`LocalState` globals are left unchanged and the exception propagates, so
the tip does not advance past a failed height on that pass. -/
theorem update_tip_advance (db : DBEnv) (store : Store) (ls : LocalState) :
    ((Block.update db store ls).err = none →
      (Block.update db store ls).ls.height = db.rpc.getblockcount ∧
      ((ls.height ≠ db.rpc.getblockcount ∨ ls.hash ≠ "") →
        (Block.update db store ls).ls.hash =
          db.rpc.getblockhash db.rpc.getblockcount)) ∧
    (∀ e, (Block.update db store ls).err = some e →
      (Block.update db store ls).ls = ls) := by
  by_cases hcond : db.rpc.getblockcount = ls.height ∧
      (ls.hash = "" ∨ db.rpc.getblockhash db.rpc.getblockcount = ls.hash)
  · simp only [Block.update, if_pos hcond]
    refine ⟨fun _ => ⟨hcond.1.symm, fun hne => ?_⟩, fun e he => by simp at he⟩
    rcases hne with hne | hne
    · exact absurd hcond.1.symm hne
    · rcases hcond.2 with hh | hh
      · exact absurd hh hne
      · exact hh.symm
  · simp only [Block.update, if_neg hcond]
    cases hloop : Block.update_loop db store
        (List.range' (ls.height + 1) (db.rpc.getblockcount - ls.height)) with
    | ok s2 =>
      exact ⟨fun _ => ⟨rfl, fun _ => rfl⟩, fun e he => Option.noConfusion he⟩
    | error p =>
      obtain ⟨e0, s0⟩ := p
      exact ⟨fun he => Option.noConfusion he, fun e _ => rfl⟩

/-- C1 witness: a quiet successful pass over `dbQuiet` advances the tracker
to the observed tip. -/
theorem update_tip_advance_witness :
    (Block.update dbQuiet [] ⟨0, "q0"⟩).err = none ∧
    (Block.update dbQuiet [] ⟨0, "q0"⟩).ls.height = dbQuiet.rpc.getblockcount ∧
    (Block.update dbQuiet [] ⟨0, "q0"⟩).ls.hash =
      dbQuiet.rpc.getblockhash dbQuiet.rpc.getblockcount :=
  ⟨by decide,
   ((update_tip_advance dbQuiet [] ⟨0, "q0"⟩).1 (by decide)).1,
   ((update_tip_advance dbQuiet [] ⟨0, "q0"⟩).1 (by decide)).2 (by decide)⟩

/-- C1 counterexample: with `dbMismatch` (chain height 2, block-detail
endpoint answering a wrong height), the loop iteration for height 2 raises
the integrity mismatch and `Block.update` leaves `LocalState` at
`(1, "h1")` instead of advancing it to the observed tip `(2, "h2")` — the
claim that the tracker is set to the observed tip "whether every ingestion
succeeded or some height's ingestion failed" is false on the code. -/
theorem update_failed_height_not_advanced :
    (Block.update dbMismatch [] ⟨1, "h1"⟩).err.isSome = true ∧
    (Block.update dbMismatch [] ⟨1, "h1"⟩).ls = ⟨1, "h1"⟩ ∧
    dbMismatch.rpc.getblockcount = 2 := by decide

/-- C2 (amended): the `update_task` loop catches only the cancellation
signal (`KeyboardInterrupt`), terminating cleanly; any other exception
raised during a poll-loop iteration is not caught and not logged — it
propagates out of `update_task` at once, terminating the loop instead of
continuing with the next iteration. -/
theorem update_task_exception_terminates (db : DBEnv) (intr : Nat → Bool)
    (n : Nat) (store : Store) (ls : LocalState) (fuel : Nat) :
    (intr n = true →
      Block.update_task_loop db intr n store ls (fuel + 1) =
        TaskOutcome.interrupted store ls) ∧
    (∀ e, intr n = false →
      (Block.update db (Block.update_confirmations_all db store).2 ls).err = some e →
      Block.update_task_loop db intr n store ls (fuel + 1) =
        TaskOutcome.crashed e
          (Block.update db (Block.update_confirmations_all db store).2 ls).store
          (Block.update db (Block.update_confirmations_all db store).2 ls).ls) := by
  constructor
  · intro h
    simp [Block.update_task_loop, h]
  · intro e h he
    simp [Block.update_task_loop, h, he]

/-- C2 witness: over `dbMismatch` the first iteration's tip advance raises,
and one loop step ends in the `crashed` outcome carrying that exception. -/
theorem update_task_exception_terminates_witness :
    ((fun _ : Nat => false) 0 = false) ∧
    (Block.update dbMismatch (Block.update_confirmations_all dbMismatch []).2
      ⟨1, ""⟩).err = some "Block info mismatch at height 2" ∧
    Block.update_task_loop dbMismatch (fun _ => false) 0 [] ⟨1, ""⟩ (4 + 1) =
      TaskOutcome.crashed "Block info mismatch at height 2"
        (Block.update dbMismatch (Block.update_confirmations_all dbMismatch []).2
          ⟨1, ""⟩).store
        (Block.update dbMismatch (Block.update_confirmations_all dbMismatch []).2
          ⟨1, ""⟩).ls :=
  ⟨rfl, by decide,
   (update_task_exception_terminates dbMismatch (fun _ => false) 0 [] ⟨1, ""⟩ 4).2
     "Block info mismatch at height 2" rfl (by decide)⟩

/-- C2 counterexample: with no cancellation signal ever delivered and fuel
for five iterations, the poll loop over `dbMismatch` terminates by a
propagating exception on its first iteration — refuting the claim that any
non-cancellation exception is caught and the loop continues, terminating
only on cancellation. -/
theorem update_task_crash_not_caught :
    (Block.update_task dbMismatch (fun _ => false) [] ⟨0, ""⟩ 5).isCrashed = true := by
  decide

/-- C3 (amended): during tip advance, for every height in
`(local.height, chain_height]` the loop invokes `Block.make` directly — an
unconditional ingestion attempt with no prior existence check: on an
exception-free pass the store becomes the old store plus, appended in
height order, exactly the blocks `Block.make` ingests at each height of
the range, regardless of any block already persisted at such a height
(`erasePkid` discounts only the commit-time sequence values). -/
theorem update_makes_each_height (db : DBEnv) (store : Store) (ls : LocalState)
    (h : (Block.update db store ls).err = none) :
    (Block.update db store ls).store.map erasePkid =
      store.map erasePkid ++
      (List.range' (ls.height + 1) (db.rpc.getblockcount - ls.height)).filterMap
        (Block.make_candidate db) := by
  by_cases hcond : db.rpc.getblockcount = ls.height ∧
      (ls.hash = "" ∨ db.rpc.getblockhash db.rpc.getblockcount = ls.hash)
  · have hsub : db.rpc.getblockcount - ls.height = 0 := by omega
    simp only [Block.update, if_pos hcond, hsub, List.range'_zero]
    simp
  · simp only [Block.update, if_neg hcond] at h ⊢
    cases hloop : Block.update_loop db store
        (List.range' (ls.height + 1) (db.rpc.getblockcount - ls.height)) with
    | ok s2 =>
      exact update_loop_ok_map db _ store s2 hloop
    | error p =>
      obtain ⟨e0, s0⟩ := p
      rw [hloop] at h
      simp at h

/-- C3 witness: a successful pass over `dbQuiet` realizes the appended
characterization of the per-height `Block.make` loop. -/
theorem update_makes_each_height_witness :
    (Block.update dbQuiet [] ⟨0, "q0"⟩).err = none ∧
    (Block.update dbQuiet [] ⟨0, "q0"⟩).store.map erasePkid =
      ([] : Store).map erasePkid ++
      (List.range' (0 + 1) (dbQuiet.rpc.getblockcount - 0)).filterMap
        (Block.make_candidate dbQuiet) :=
  ⟨by decide, update_makes_each_height dbQuiet [] ⟨0, "q0"⟩ (by decide)⟩

/-- C3 counterexample: `storeDup` already holds a block at height 1
(hash "X"); advancing over `dbDup` from local height 0 to chain height 1
runs `Block.make` unconditionally and commits a second row at height 1
(hash "Y1") — refuting the claim that a persisted block at that height is
returned without attempting to create a duplicate. -/
theorem update_duplicate_height_created :
    ((Block.update dbDup storeDup ⟨0, "h0"⟩).store.filter
        (fun b => b.height == 1)).length = 2 ∧
    (Block.update dbDup storeDup ⟨0, "h0"⟩).err = none ∧
    (storeDup.filter (fun b => b.height == 1)).length = 1 := by decide

/-- C4: ingestion of one height is all-or-nothing. A non-raising
`Block.make` either returns `None` with the store exactly unchanged
(rollback) or commits exactly the one new block it returns, and that block
carries at least one history row; and given a successful detail fetch,
`on_new_block` reports "discard" precisely when the candidate address sets
are both empty, or no tracked address matches them, or no hook invocation
actually added a history row. -/
theorem make_all_or_nothing :
    (∀ (db : DBEnv) (store : Store) (height : Nat) (s' : Store) (ob : Option Block),
      Block.make db store height = Except.ok (s', ob) →
        (ob = none → s' = store) ∧
        (∀ b, ob = some b → s' = store ++ [b] ∧ b.addr_hist ≠ [])) ∧
    (∀ (db : DBEnv) (height : Nat) (bhash : String) (info : RawInfo) (txes : List Tx),
      Block.get_block_info db height bhash = Except.ok (info, txes) →
        (Block.on_new_block db height bhash = Except.ok none ↔
          ((Block.scanAddrs txes).1 = [] ∧ (Block.scanAddrs txes).2.1 = []) ∨
          Block.matchedAddrs db (Block.scanAddrs txes).1 (Block.scanAddrs txes).2.1 = [] ∨
          (Block.matchedAddrs db (Block.scanAddrs txes).1
            (Block.scanAddrs txes).2.1).filter db.on_block_create = [])) := by
  constructor
  · intro db store height s' ob h
    unfold Block.make at h
    cases hon : Block.on_new_block db height (db.rpc.getblockhash height) with
    | error e => rw [hon] at h; simp at h
    | ok ob0 =>
      rw [hon] at h
      cases ob0 with
      | none =>
        simp only [Except.ok.injEq, Prod.mk.injEq] at h
        obtain ⟨hs, hob⟩ := h
        subst hs; subst hob
        exact ⟨fun _ => rfl, fun b hb => by simp at hb⟩
      | some b0 =>
        simp only [Except.ok.injEq, Prod.mk.injEq] at h
        obtain ⟨hs, hob⟩ := h
        subst hs; subst hob
        refine ⟨fun hn => by simp at hn, fun b hb => ?_⟩
        obtain rfl : ({ b0 with pkid := freshPkid store } : Block) = b := by
          simpa using hb
        refine ⟨rfl, ?_⟩
        have := on_new_block_some_hist db height (db.rpc.getblockhash height) b0 hon
        simpa using this
  · intro db height bhash info txes hinfo
    unfold Block.on_new_block
    rw [hinfo]
    simp only
    by_cases h1 : (Block.scanAddrs txes).1.isEmpty && (Block.scanAddrs txes).2.1.isEmpty
    · rw [if_pos h1]
      simp only [Bool.and_eq_true, List.isEmpty_iff] at h1
      simp [h1]
    · rw [if_neg h1]
      by_cases h2 : (Block.matchedAddrs db (Block.scanAddrs txes).1
          (Block.scanAddrs txes).2.1).isEmpty
      · rw [if_pos h2]
        simp only [List.isEmpty_iff] at h2
        simp [h2]
      · rw [if_neg h2]
        by_cases h3 : ((Block.matchedAddrs db (Block.scanAddrs txes).1
            (Block.scanAddrs txes).2.1).filter db.on_block_create).isEmpty
        · rw [if_pos h3]
          simp only [List.isEmpty_iff] at h3
          simp [h3]
        · rw [if_neg h3]
          simp only [Bool.and_eq_true, List.isEmpty_iff] at h1 h2 h3
          constructor
          · intro hc; simp at hc
          · rintro (⟨ha, hb⟩ | hm | hf)
            · exact absurd (by simp [ha, hb]) h1
            · exact absurd (by simp [hm]) h2
            · exact absurd (by simp [hf]) h3

/-- C4 witness: ingesting height 1 over `dbDup` and the empty store commits
exactly the returned block `nbDup`, which has history. -/
theorem make_all_or_nothing_witness :
    Block.make dbDup [] 1 = Except.ok ([nbDup], some nbDup) ∧
    ((some nbDup = none → ([nbDup] : Store) = []) ∧
     (∀ b, some nbDup = some b → ([nbDup] : Store) = [] ++ [b] ∧ b.addr_hist ≠ [])) :=
  ⟨by rfl, make_all_or_nothing.1 dbDup [] 1 [nbDup] (some nbDup) (by rfl)⟩

/-- C5: a stored block's `conf` never decreases across Maturity Monitor
passes, and once `conf` is at or above the threshold 501 no pass changes
the row: one `update_confirmations_all` pass transforms each stored row by
`passRow`, and whenever `passRow` keeps a row, the new `conf` is at least
the old one, while a row already at/above `CONF_MATURE` is returned
entirely unchanged. -/
theorem conf_monotone_frozen (db : DBEnv) (store : Store) :
    (Block.update_confirmations_all db store).2 = store.filterMap (Block.passRow db) ∧
    (∀ b b', Block.passRow db b = some b' →
      b.conf ≤ b'.conf ∧ (Block.CONF_MATURE ≤ b.conf → b' = b)) := by
  refine ⟨rfl, ?_⟩
  intro b b' h
  unfold Block.passRow Block.update_confirmations at h
  by_cases hc : b.conf < Block.CONF_MATURE
  · simp only [hc, if_true, if_pos hc] at h
    by_cases hl : Block.CONF_MATURE ≤ db.rpc.getblockheader_confirmations b.hash
    · rw [if_pos hl] at h
      by_cases hh : b.addr_hist.isEmpty
      · simp [hh] at h
      · simp only [hh, Bool.false_eq_true, if_false, Option.some.injEq] at h
        subst h
        refine ⟨le_of_lt (lt_of_lt_of_le hc hl), fun hge => absurd hc (not_lt.mpr hge)⟩
    · rw [if_neg hl] at h
      simp only [Option.some.injEq] at h
      subst h
      exact ⟨le_refl _, fun _ => rfl⟩
  · simp only [hc, if_false, if_neg hc] at h
    simp only [Option.some.injEq] at h
    subst h
    exact ⟨le_refl _, fun _ => rfl⟩

/-- C5 witness: a pass over a mature row (`conf = 600`) keeps it frozen. -/
theorem conf_monotone_frozen_witness :
    Block.passRow dbFork blockMature = some blockMature ∧
    blockMature.conf ≤ blockMature.conf ∧
    (Block.CONF_MATURE ≤ blockMature.conf → blockMature = blockMature) :=
  ⟨by decide,
   (conf_monotone_frozen dbFork [blockMature]).2 blockMature blockMature (by decide)⟩

/-- C6: a Maturity Monitor pass selects exactly the stored blocks with
`conf < 501` (a permutation of that filter), in ascending height order;
and every selected block whose refreshed live depth is still below 501 is
left completely untouched — `update_confirmations` returns the identical
row, its stored `conf` not overwritten. -/
theorem maturity_pass_selection (db : DBEnv) (store : Store) :
    ((Block.update_confirmations_all db store).1).Perm
        (store.filter (fun b => decide (b.conf < Block.CONF_MATURE))) ∧
    List.Sorted (fun a b : Block => a.height ≤ b.height)
        (Block.update_confirmations_all db store).1 ∧
    (∀ b ∈ (Block.update_confirmations_all db store).1,
      db.rpc.getblockheader_confirmations b.hash < Block.CONF_MATURE →
      Block.update_confirmations db b = some b) := by
  refine ⟨List.perm_insertionSort _ _, List.sorted_insertionSort _ _, ?_⟩
  intro b hb hlive
  have hmem : b ∈ store.filter (fun b => decide (b.conf < Block.CONF_MATURE)) :=
    (List.perm_insertionSort _ _).mem_iff.mp hb
  have hc : b.conf < Block.CONF_MATURE := by
    have := (List.mem_filter.mp hmem).2
    exact of_decide_eq_true this
  unfold Block.update_confirmations
  rw [if_pos hc, if_neg (not_le.mpr hlive)]

/-- C6 witness: an immature row (`conf = 480`) is selected, and with live
depth 0 it is left untouched. -/
theorem maturity_pass_selection_witness :
    blockImmature ∈ (Block.update_confirmations_all dbFork [blockImmature]).1 ∧
    dbFork.rpc.getblockheader_confirmations blockImmature.hash < Block.CONF_MATURE ∧
    Block.update_confirmations dbFork blockImmature = some blockImmature :=
  ⟨by decide, by decide,
   (maturity_pass_selection dbFork [blockImmature]).2.2 blockImmature
     (by decide) (by decide)⟩

/-- C7: when exactly one block is persisted at `height`, `Block.get`
returns it with the store unchanged (no duplicate row), for either value
of `create`, and — since `db` is universally quantified while the result
depends only on the store — without consulting the chain client (no
re-fetch of block or transaction detail). -/
theorem get_idempotent (db : DBEnv) (store : Store) (height : Nat) (create : Bool)
    (b : Block) (h : store.filter (fun x => x.height == height) = [b]) :
    Block.get db store height create = Except.ok (store, some b) := by
  unfold Block.get
  rw [h]

/-- C7 witness: fetching the single stored block at height 3 returns it
unchanged. -/
theorem get_idempotent_witness :
    ([blockMature] : Store).filter (fun x => x.height == 3) = [blockMature] ∧
    Block.get dbFork [blockMature] 3 true = Except.ok ([blockMature], some blockMature) :=
  ⟨by decide, get_idempotent dbFork [blockMature] 3 true blockMature (by decide)⟩

/-- C8: in the `on_new_block` address scan, a candidate address string is
in the base58 set iff it is yielded by some transaction and has length 34,
in the hex set iff yielded with length 40, and is logged-and-ignored (the
warned component) iff yielded with any other length — the total scan
function never fails on an unexpected length. -/
theorem scan_classification (txes : List Tx) (address : String) :
    (address ∈ (Block.scanAddrs txes).1 ↔
      address ∈ (txes.map Tx.addrs).flatten ∧ address.length = 34) ∧
    (address ∈ (Block.scanAddrs txes).2.1 ↔
      address ∈ (txes.map Tx.addrs).flatten ∧ address.length = 40) ∧
    (address ∈ (Block.scanAddrs txes).2.2 ↔
      address ∈ (txes.map Tx.addrs).flatten ∧
        address.length ≠ 34 ∧ address.length ≠ 40) := by
  rw [scanAddrs_eq]
  refine ⟨?_, ?_, ?_⟩ <;> simp [List.mem_filter] <;> tauto

/-- C8 witness: in a mixed transaction the 34-character address lands in
the base58 set and the 2-character one does not. -/
theorem scan_classification_witness :
    addr34 ∈ (Block.scanAddrs [txMixed]).1 ∧ "zz" ∉ (Block.scanAddrs [txMixed]).1 :=
  ⟨(scan_classification [txMixed] addr34).1.mpr ⟨by decide, by decide⟩,
   fun hmem => absurd ((scan_classification [txMixed] "zz").1.mp hmem).2 (by decide)⟩

/-- C9 (amended): when `chain_height = local.height` and a non-empty
recorded `local.hash` differs from `chain_hash`, `Block.update` logs the
fork warning, raises no exception and performs no reconciliation of
stored blocks (the store is exactly unchanged); however the cached hash is
not left unchanged: the fall-through past the warning sets `local.hash` to
the freshly fetched `chain_hash` (and `local.height` to its same value). -/
theorem fork_updates_cached_hash (db : DBEnv) (store : Store) (ls : LocalState)
    (h1 : ls.height = db.rpc.getblockcount) (h2 : ls.hash ≠ "")
    (h3 : db.rpc.getblockhash db.rpc.getblockcount ≠ ls.hash) :
    Block.update db store ls =
      { store := store,
        ls := { height := db.rpc.getblockcount,
                hash := db.rpc.getblockhash db.rpc.getblockcount },
        forkWarned := true, err := none } := by
  have hcond : ¬(db.rpc.getblockcount = ls.height ∧
      (ls.hash = "" ∨ db.rpc.getblockhash db.rpc.getblockcount = ls.hash)) := by
    rintro ⟨-, hh | hh⟩
    · exact h2 hh
    · exact h3 hh
  have hsub : db.rpc.getblockcount - ls.height = 0 := by omega
  have hfork : decide (db.rpc.getblockcount = ls.height ∧ ls.hash ≠ "" ∧
      db.rpc.getblockhash db.rpc.getblockcount ≠ ls.hash) = true :=
    decide_eq_true ⟨h1.symm, h2, h3⟩
  simp only [Block.update, if_neg hcond, hsub, List.range'_zero, Block.update_loop,
    hfork]

/-- C9 witness: the fork case over `dbFork` at height 5. -/
theorem fork_updates_cached_hash_witness :
    ("aaa" ≠ "") ∧ (dbFork.rpc.getblockhash dbFork.rpc.getblockcount ≠ "aaa") ∧
    Block.update dbFork [] ⟨5, "aaa"⟩ =
      { store := [], ls := ⟨5, "bbb"⟩, forkWarned := true, err := none } :=
  ⟨by decide, by decide,
   fork_updates_cached_hash dbFork [] ⟨5, "aaa"⟩ (by decide) (by decide) (by decide)⟩

/-- C9 counterexample: at equal height 5 with cached hash "aaa" and fresh
chain hash "bbb", the fork warning is logged and no exception is raised,
but the cached hash does not stay "aaa" — it becomes "bbb", refuting the
claim that the Tip Tracker's cached hash is left unchanged. -/
theorem fork_hash_not_left_unchanged :
    (Block.update dbFork [] ⟨5, "aaa"⟩).forkWarned = true ∧
    (Block.update dbFork [] ⟨5, "aaa"⟩).err = none ∧
    (Block.update dbFork [] ⟨5, "aaa"⟩).store = [] ∧
    (Block.update dbFork [] ⟨5, "aaa"⟩).ls.hash ≠ "aaa" := by decide

/-- C10: when two or more rows are stored at one height — permitted by the
schema, which makes only `(height, hash)` and `hash` unique — `Block.get`
raises `MultipleResultsFound` for either value of `create` (`.one()` and
`.one_or_none()` alike), since only `NoResultFound` is handled. -/
theorem get_multiple_rows (db : DBEnv) (store : Store) (height : Nat) (create : Bool)
    (h : 2 ≤ (store.filter (fun x => x.height == height)).length) :
    Block.get db store height create = Except.error DbErr.multipleResultsFound := by
  unfold Block.get
  rcases hf : store.filter (fun x => x.height == height) with _ | ⟨x, _ | ⟨y, rest⟩⟩
  · rw [hf] at h; simp at h
  · rw [hf] at h; simp at h
  · rw [hf]

/-- C10 witness: two rows at height 9 make `Block.get` raise
`MultipleResultsFound` for both `create` values. -/
theorem get_multiple_rows_witness :
    2 ≤ (([blockNine1, blockNine2] : Store).filter (fun x => x.height == 9)).length ∧
    Block.get dbFork [blockNine1, blockNine2] 9 true =
      Except.error DbErr.multipleResultsFound ∧
    Block.get dbFork [blockNine1, blockNine2] 9 false =
      Except.error DbErr.multipleResultsFound :=
  ⟨by decide,
   get_multiple_rows dbFork [blockNine1, blockNine2] 9 true (by decide),
   get_multiple_rows dbFork [blockNine1, blockNine2] 9 false (by decide)⟩
